import Mathlib

/-!
Verification of the audit-run orchestration and result-normalization logic
of the WCAG accessibility tester (files `accessibility_tester.py` and
`streamlit_a11y_app.py`).

Python strings are modelled as `List Char` (a Python `str` is a sequence of
Unicode code points, and a Lean `Char` is a Unicode scalar value).  The
external Node.js auditor process and the Python standard library calls at
the process boundary (`subprocess.run`, `json.loads`) are modelled by their
observable effect on the code under verification: an `AuditorBehavior`
value records how the spawned process behaves, and the JSON parse of its
standard output is recorded as an `Except` value (left: the message of the
`JSONDecodeError` that `json.loads` raises; right: the parsed value).
-/

set_option maxHeartbeats 1000000
set_option maxRecDepth 40000

namespace A11y

/-- The ASCII whitespace characters stripped by Python `str.strip()` with no
arguments (Python also strips further Unicode whitespace; only these ASCII
characters matter for the theorems below). -/
def pyIsSpace (c : Char) : Bool :=
  c == ' ' || c == '\t' || c == '\n' || c == '\r' || c == '\x0b' || c == '\x0c'

/-- Python `s.lstrip()`. -/
def pyLStrip (s : List Char) : List Char := s.dropWhile pyIsSpace

/-- Python `s.rstrip()`. -/
def pyRStrip (s : List Char) : List Char := (s.reverse.dropWhile pyIsSpace).reverse

/-- Python `s.strip()`. -/
def pyStrip (s : List Char) : List Char := pyRStrip (pyLStrip s)

/-- Python `s.startswith(p)`. -/
def pyStartsWith (s p : List Char) : Bool := decide (p <+: s)

/-- Python `p in s` (substring containment). -/
def pyContains (s p : List Char) : Bool := decide (p <:+: s)

/-- Worker for `pyReplace`: scans the string left to right; a positive skip
count records characters that belong to an occurrence that was just
replaced and must not be re-emitted nor re-scanned. -/
def pyReplaceGo (pat rep : List Char) : List Char → Nat → List Char
  | [], _ => []
  | _ :: rest, Nat.succ k => pyReplaceGo pat rep rest k
  | c :: rest, 0 =>
    if pat ≠ [] ∧ pat <+: (c :: rest) then
      rep ++ pyReplaceGo pat rep rest (pat.length - 1)
    else
      c :: pyReplaceGo pat rep rest 0

/-- Python `s.replace(pat, rep)` for a non-empty `pat`: replaces every
occurrence, scanning left to right, without rescanning replaced text. -/
def pyReplace (s pat rep : List Char) : List Char := pyReplaceGo pat rep s 0

/-- Number of positions of `s` at which `pat` occurs (used to state the
"exactly one tag" properties). -/
def countOcc (pat : List Char) : List Char → Nat
  | [] => 0
  | c :: rest => (if pat <+: (c :: rest) then 1 else 0) + countOcc pat rest

/-- No occurrence of `pat` can begin at any position of an occurrence of
`marker`: for every index `j` of `marker`, `pat` neither fits inside the
remainder of `marker` nor does that remainder continue into `pat`. -/
abbrev NoMatchInside (pat marker : List Char) : Prop :=
  ∀ j, j < marker.length → ¬ pat <+: marker.drop j ∧ ¬ marker.drop j <+: pat

/-- No occurrence of `pat` beginning before an occurrence of `marker` can
end inside it: no non-empty proper tail of `pat` starts `marker`. -/
abbrev NoTailOverlap (pat marker : List Char) : Prop :=
  ∀ k, k < pat.length → 0 < k → ¬ pat.drop k <+: marker

/-! ### `accessibility_tester.py`: URL validation and HTML patching -/

/-- `is_valid_url`: `re.match(r'^https?://', u.strip()) is not None`.  The
anchored regular expression `https?://` matches exactly when the stripped
string starts with the literal `http://` or `https://`. -/
def is_valid_url (u : List Char) : Bool :=
  pyStartsWith (pyStrip u) ("http://".toList) ||
    pyStartsWith (pyStrip u) ("https://".toList)

/-- The literal `'<head>'` that the insertion steps of `render_html` use as
their replacement target. -/
def headTag : List Char := "<head>".toList

/-- The doctype marker tested by `render_html`. -/
def doctypeMarker : List Char := "<!DOCTYPE".toList

/-- The line `'<!DOCTYPE html>\n'` prepended by `render_html`. -/
def doctypeLine : List Char := "<!DOCTYPE html>\n".toList

/-- The presence marker `'<meta charset='` of the charset step. -/
def charsetMarker : List Char := "<meta charset=".toList

/-- The replacement text of the charset step. -/
def charsetIns : List Char := "<head>\n    <meta charset=\"UTF-8\">".toList

/-- The presence marker `'viewport'` of the viewport step. -/
def viewportMarker : List Char := "viewport".toList

/-- The replacement text of the viewport step. -/
def viewportIns : List Char :=
  "<head>\n    <meta name=\"viewport\" content=\"width=device-width, initial-scale=1.0\">".toList

/-- The presence marker `'Content-Security-Policy'` of the CSP step. -/
def cspMarker : List Char := "Content-Security-Policy".toList

/-- The `csp_meta` literal of `render_html` (apostrophes written as `\x27`). -/
def csp_meta : List Char :=
  "<meta http-equiv=\"Content-Security-Policy\" content=\"default-src * \x27unsafe-inline\x27 \x27unsafe-eval\x27 data: blob:;\">".toList

/-- The replacement text of the CSP step: `'<head>\n    ' + csp_meta`. -/
def cspIns : List Char := "<head>\n    ".toList ++ csp_meta

/-- The shape that makes `html.strip().startswith('<!DOCTYPE')` true and
keeps it true under the head-insertion replaces: some leading whitespace,
then the doctype marker. -/
abbrev DocPrefixed (s : List Char) : Prop :=
  ∃ w t, s = w ++ doctypeMarker ++ t ∧ ∀ c ∈ w, pyIsSpace c = true

/-- Step 1 of `render_html`: prepend a doctype when the stripped document
does not start with `'<!DOCTYPE'`. -/
def doctype_prepend (html : List Char) : List Char :=
  if pyStartsWith (pyStrip html) doctypeMarker = false then doctypeLine ++ html
  else html

/-- Step 2 of `render_html`: when `'<meta charset='` is absent, replace
every `'<head>'` by `'<head>'` followed by a charset meta tag. -/
def charset_insert (html : List Char) : List Char :=
  if pyContains html charsetMarker = false then pyReplace html headTag charsetIns
  else html

/-- Step 3 of `render_html`: when `'viewport'` is absent, replace every
`'<head>'` by `'<head>'` followed by a viewport meta tag. -/
def viewport_insert (html : List Char) : List Char :=
  if pyContains html viewportMarker = false then pyReplace html headTag viewportIns
  else html

/-- Step 4 of `render_html`: when `'Content-Security-Policy'` is absent,
replace every `'<head>'` by `'<head>'` followed by the CSP meta tag. -/
def csp_insert (html : List Char) : List Char :=
  if pyContains html cspMarker = false then pyReplace html headTag cspIns
  else html

/-- `render_html`: the four guarded insertion steps, applied in source
order (doctype, charset, viewport, CSP). -/
def render_html (html : List Char) : List Char :=
  csp_insert (viewport_insert (charset_insert (doctype_prepend html)))

/-! ### `accessibility_tester.py`: `run_node_axe` (file-mode invoker) -/

/-- Behaviour of the completed file-mode auditor process: its exit code and
diagnostic stream, and the content the auditor wrote to the temporary
output file. -/
structure FileProcResult where
  returncode : Int
  stderr : String
  outFileContent : List Char
deriving DecidableEq, Repr

/-- The fallback document returned by `run_node_axe` on a non-zero exit. -/
def errorFallbackHtml : List Char :=
  "<html><body><h1>Error running test</h1></body></html>".toList

/-- Observable outcome of one `run_node_axe` call: the returned HTML and
whether `os.unlink` was executed on the temporary output file the call
created (`tempFileDeleted = false` means the artifact still exists on disk
after the call returns). -/
structure NodeAxeRun where
  returnedHtml : List Char
  tempFileDeleted : Bool
deriving DecidableEq, Repr

/-- `run_node_axe`: creates the temporary output file, runs the auditor,
and on a non-zero exit returns the fallback document at once; only the
success path reads the output file and calls `os.unlink` on it. -/
def run_node_axe (p : FileProcResult) : NodeAxeRun :=
  if p.returncode ≠ 0 then
    { returnedHtml := errorFallbackHtml, tempFileDeleted := false }
  else
    { returnedHtml := p.outFileContent, tempFileDeleted := true }

/-! ### `streamlit_a11y_app.py`: `run_accessibility_check` (JSON-mode invoker) -/

/-- A JSON value, as produced by Python `json.loads` (numbers restricted to
integers; no claim depends on fractional numbers). -/
inductive JValue where
  | null
  | bool (b : Bool)
  | num (n : Int)
  | str (s : String)
  | arr (elems : List JValue)
  | obj (fields : List (String × JValue))

/-- Lookup in an association list of JSON object fields (first binding
wins, as in a Python dict built from JSON). -/
def lookupField : List (String × JValue) → String → Option JValue
  | [], _ => none
  | (k', w) :: rest, k => if k' = k then some w else lookupField rest k

/-- Python dictionary access `d.get(k)` / `k in d` on a JSON object. -/
def getField (v : JValue) (k : String) : Option JValue :=
  match v with
  | .obj fields => lookupField fields k
  | _ => none

/-- How the spawned auditor process behaves, as observed by
`run_accessibility_check`.  `stdoutJson` records the result of applying
`json.loads` to the captured standard output (`.error msg`: `json.loads`
raises a `JSONDecodeError` whose text is `msg`). -/
inductive AuditorBehavior where
  /-- `subprocess.run` itself raises (missing executable, OS-level spawn
  failure); `msg` is the exception text. -/
  | spawnFailure (msg : String)
  /-- The process runs for `elapsed` seconds and exits. -/
  | exits (elapsed : Nat) (returncode : Int) (stdoutJson : Except String JValue)
      (stderr : String)
  /-- The process never exits. -/
  | hangs

/-- A completed process as returned by `subprocess.run`. -/
structure CompletedProcess where
  returncode : Int
  stdoutJson : Except String JValue
  stderr : String

/-- A Python exception crossing the `subprocess.run` / `json.loads`
boundary: either `subprocess.TimeoutExpired` or some other `Exception`
carrying its `str(e)` text. -/
inductive PyExn where
  | timeoutExpired
  | exn (msg : String)
deriving DecidableEq, Repr

/-- The wall-clock budget passed to `subprocess.run` (`timeout=60`). -/
def timeoutSeconds : Nat := 60

/-- `subprocess.run(['node', script, url], capture_output=True, text=True,
timeout=budget)`: completes when the process exits within the budget,
raises `TimeoutExpired` when the budget is exceeded, and raises an ordinary
exception when the spawn itself fails. -/
def subprocess_run (budget : Nat) (b : AuditorBehavior) :
    Except PyExn CompletedProcess :=
  match b with
  | .spawnFailure msg => .error (.exn msg)
  | .exits elapsed rc out err =>
    if elapsed ≤ budget then .ok ⟨rc, out, err⟩ else .error .timeoutExpired
  | .hangs => .error .timeoutExpired

/-- The result dictionary built on the non-zero-exit path. -/
def processFailureResult (stderr : String) : JValue :=
  .obj [("success", .bool false),
        ("error", .str ("Node.js script failed: " ++ stderr)),
        ("streamlitHtml",
         .str ("<div style=\"padding: 20px; color: red;\">Error: " ++ stderr
               ++ "</div>"))]

/-- The result dictionary built by the `subprocess.TimeoutExpired` handler. -/
def timeoutResult : JValue :=
  .obj [("success", .bool false),
        ("error", .str "Request timed out"),
        ("streamlitHtml",
         .str "<div style=\"padding: 20px; color: red;\">Request timed out after 60 seconds</div>")]

/-- The result dictionary built by the generic `except Exception` handler. -/
def exceptionResult (msg : String) : JValue :=
  .obj [("success", .bool false),
        ("error", .str msg),
        ("streamlitHtml",
         .str ("<div style=\"padding: 20px; color: red;\">Error: " ++ msg
               ++ "</div>"))]

/-- The payload of the spec scenario: the auditor prints
`{"success": false, "error": "boom"}` on stdout and exits 0. -/
def boomPayload : JValue :=
  .obj [("success", .bool false), ("error", .str "boom")]

/-- The body of the `try` block of `run_accessibility_check`: may raise
(`Except.error`): the `subprocess.run` call can raise `TimeoutExpired` or a
spawn failure, and `json.loads` can raise a `JSONDecodeError`. -/
def run_accessibility_check_body (b : AuditorBehavior) : Except PyExn JValue :=
  match subprocess_run timeoutSeconds b with
  | .error e => .error e
  | .ok result =>
    if result.returncode == 0 then
      match result.stdoutJson with
      | .ok v => .ok v
      | .error msg => .error (.exn msg)
    else
      .ok (processFailureResult result.stderr)

/-- `run_accessibility_check`: the `try` body wrapped in the two handlers
(`except subprocess.TimeoutExpired` and `except Exception`). -/
def run_accessibility_check (b : AuditorBehavior) : Except PyExn JValue :=
  match run_accessibility_check_body b with
  | .ok v => .ok v
  | .error .timeoutExpired => .ok timeoutResult
  | .error (.exn msg) => .ok (exceptionResult msg)

/-! ### Front-end dispatch flows -/

/-- One `run_node_axe` invocation as dispatched by the file-mode front end. -/
structure Invocation where
  url : List Char
  standards : List String
  device : String
  keyboard : Bool
deriving DecidableEq, Repr

/-- A user-visible step of the file-mode front-end script. -/
inductive UiEvent where
  | warning (msg : String)
  | info (msg : String)
  | audit (inv : Invocation)
deriving DecidableEq, Repr

/-- The `selected_standards` list built from the four checkboxes, in source
order. -/
def selected_standards (wcag2a wcag2aa best_practice aria : Bool) : List String :=
  (if wcag2a then ["WCAG 2.0A"] else []) ++
    (if wcag2aa then ["WCAG 2.0AA"] else []) ++
    (if best_practice then ["Best-practice"] else []) ++
    (if aria then ["Aria"] else [])

/-- The short-circuit message shown when no standard is selected. -/
def selectStandardMsg : String :=
  "Please select at least one testing standard above to run the audit."

/-- The inline warning shown for a URL of bad shape. -/
def invalidUrlMsg : String :=
  "Please enter a valid URL starting with http:// or https://"

/-- The dispatch flow at the bottom of `accessibility_tester.py`: the two
`if url` statements, the empty-standards short circuit, and (on a button
press) the desktop and mobile `run_node_axe` invocations, as the ordered
list of user-visible events of one script pass. -/
def ui_dispatch (url : List Char)
    (wcag2a wcag2aa best_practice aria keyboard_testing pressed : Bool) :
    List UiEvent :=
  (if url ≠ [] ∧ is_valid_url url = false then [.warning invalidUrlMsg] else [])
    ++
    (if url ≠ [] ∧ is_valid_url url = true then
      if selected_standards wcag2a wcag2aa best_practice aria = [] then
        [.info selectStandardMsg]
      else
        [.info ("**Selected standards:** " ++ String.intercalate ", "
          (selected_standards wcag2a wcag2aa best_practice aria))]
          ++ (if pressed then
                [.audit ⟨url, selected_standards wcag2a wcag2aa best_practice aria,
                   "desktop", keyboard_testing⟩,
                 .audit ⟨url, selected_standards wcag2a wcag2aa best_practice aria,
                   "mobile", keyboard_testing⟩]
              else [])
    else [])

/-- The JSON-mode front-end session flags (`st.session_state.run_test` and
`st.session_state.test_url`; an absent `run_test` attribute is modelled as
`false`). -/
structure SessionState where
  run_test : Bool
  test_url : List Char
deriving DecidableEq, Repr

/-- One pass of `main()` in `streamlit_a11y_app.py`: a button press with a
non-empty URL sets the session flags, and a set `run_test` flag runs
`run_accessibility_check` on the stored URL and clears the flag.  Returns
the list of URLs passed to `run_accessibility_check` during the pass and
the final session state.  The only gate on the entered URL is `if url:`
(non-emptiness). -/
def main_pass (st0 : SessionState) (url : List Char) (pressed : Bool) :
    List (List Char) × SessionState :=
  let st1 := if pressed then
               (if url ≠ [] then { run_test := true, test_url := url } else st0)
             else st0
  if st1.run_test then ([st1.test_url], { st1 with run_test := false })
  else ([], st1)

/-! ## Helper lemmas about the string primitives -/

/-- An occurrence in a tail is an occurrence. -/
theorem sub_cons {l x : List Char} (c : Char) (h : l <:+: x) : l <:+: c :: x := by
  obtain ⟨s, t, hst⟩ := h
  exact ⟨c :: s, t, by rw [← hst]; rfl⟩

/-- An occurrence in the right part of an append is an occurrence. -/
theorem sub_append_left {l b : List Char} (a : List Char) (h : l <:+: b) :
    l <:+: a ++ b := by
  obtain ⟨s, t, hst⟩ := h
  exact ⟨a ++ s, t, by rw [← hst]; simp⟩

/-- A prefix of a substring occurrence is itself a substring occurrence. -/
theorem sub_of_pre_of_sub {l m x : List Char} (h1 : l <+: m) (h2 : m <:+: x) :
    l <:+: x := by
  obtain ⟨t1, ht1⟩ := h1
  obtain ⟨s, t, hst⟩ := h2
  exact ⟨s, t1 ++ t, by rw [← hst, ← ht1]; simp⟩

/-- A prefix occurrence is a substring occurrence. -/
theorem sub_of_pre {l x : List Char} (h : l <+: x) : l <:+: x := by
  obtain ⟨t, ht⟩ := h
  exact ⟨[], t, by rw [← ht]; rfl⟩

/-- `pyReplaceGo` with a positive skip count discards that many characters
and resumes the scan. -/
theorem pyReplaceGo_skip (pat rep : List Char) :
    ∀ (s : List Char) (k : Nat),
      pyReplaceGo pat rep s k = pyReplaceGo pat rep (s.drop k) 0 := by
  intro s
  induction s with
  | nil => intro k; cases k <;> rfl
  | cons c rest ih =>
    intro k
    cases k with
    | zero => rfl
    | succ k => simpa [pyReplaceGo] using ih k

/-- Unfolding `pyReplace` at a matching position. -/
theorem pyReplace_cons_pos {pat : List Char} (rep : List Char) {c : Char}
    {rest : List Char} (hne : pat ≠ []) (hp : pat <+: (c :: rest)) :
    pyReplace (c :: rest) pat rep
      = rep ++ pyReplace ((c :: rest).drop pat.length) pat rep := by
  show pyReplaceGo pat rep (c :: rest) 0 = _
  rw [pyReplaceGo, if_pos ⟨hne, hp⟩, pyReplaceGo_skip]
  obtain ⟨m, hm⟩ : ∃ m, pat.length = m + 1 := by
    cases pat with
    | nil => exact absurd rfl hne
    | cons p ps => exact ⟨ps.length, rfl⟩
  rw [hm]
  rfl

/-- Unfolding `pyReplace` at a non-matching position. -/
theorem pyReplace_cons_neg {pat : List Char} (rep : List Char) {c : Char}
    {rest : List Char} (h : ¬ (pat ≠ [] ∧ pat <+: (c :: rest))) :
    pyReplace (c :: rest) pat rep = c :: pyReplace rest pat rep := by
  show pyReplaceGo pat rep (c :: rest) 0 = _
  rw [pyReplaceGo, if_neg h]
  rfl

/-- A replace whose pattern does not occur is the identity. -/
theorem pyReplace_id_of_not_sub {pat : List Char} (rep : List Char) :
    ∀ {s : List Char}, ¬ pat <:+: s → pyReplace s pat rep = s := by
  intro s
  induction s with
  | nil => intro _; rfl
  | cons c rest ih =>
    intro h
    have hnp : ¬ (pat ≠ [] ∧ pat <+: (c :: rest)) := by
      rintro ⟨-, hp⟩
      exact h (sub_of_pre hp)
    rw [pyReplace_cons_neg rep hnp, ih (fun hi => h (sub_cons c hi))]

/-- When the pattern occurs, the replacement text occurs in the output. -/
theorem rep_sub_pyReplace {pat : List Char} (rep : List Char) (hne : pat ≠ []) :
    ∀ {s : List Char}, pat <:+: s → rep <:+: pyReplace s pat rep := by
  intro s
  induction s with
  | nil =>
    rintro ⟨x, y, hxy⟩
    simp only [List.append_eq_nil] at hxy
    exact absurd hxy.1.2 hne
  | cons c rest ih =>
    intro h
    by_cases hp : pat <+: (c :: rest)
    · rw [pyReplace_cons_pos rep hne hp]
      exact ⟨[], _, rfl⟩
    · have hrest : pat <:+: rest := by
        have h2 := List.infix_cons_iff.mp h
        exact h2.resolve_left hp
      have hnp : ¬ (pat ≠ [] ∧ pat <+: (c :: rest)) := fun hand => hp hand.2
      rw [pyReplace_cons_neg rep hnp]
      exact sub_cons c (ih hrest)

/-- When no occurrence of `pat` can begin inside `marker`, a replace of
`pat` keeps every tail of `marker` that is a prefix of the scanned string a
prefix of the output. -/
theorem pre_preserved (pat rep marker : List Char) (HM : NoMatchInside pat marker) :
    ∀ (s : List Char) (j : Nat),
      marker.drop j <+: s → marker.drop j <+: pyReplace s pat rep := by
  intro s
  induction s with
  | nil =>
    intro j h
    have hnil : marker.drop j = [] := List.prefix_nil.mp h
    rw [hnil]
    exact List.nil_prefix
  | cons c rest ih =>
    intro j h
    by_cases hj : marker.length ≤ j
    · rw [List.drop_eq_nil_of_le hj]
      exact List.nil_prefix
    · push_neg at hj
      have hcons : marker.drop j = marker[j] :: marker.drop (j + 1) :=
        List.drop_eq_getElem_cons hj
      have hnp : ¬ pat <+: (c :: rest) := by
        intro hp
        rcases Nat.le_total pat.length (marker.drop j).length with hle | hle
        · exact (HM j hj).1 ( List.prefix_of_prefix_length_le hp h hle)
        · exact (HM j hj).2 ( List.prefix_of_prefix_length_le h hp hle)
      rw [pyReplace_cons_neg rep (fun hand => hnp hand.2)]
      rw [hcons] at h ⊢
      rw [List.cons_prefix_cons] at h
      obtain ⟨hc, htail⟩ := h
      exact List.cons_prefix_cons.mpr ⟨hc, ih (j + 1) htail⟩

/-- Core preservation lemma: an occurrence of `marker` survives a replace
of `pat` when no occurrence of `pat` can intersect it. -/
theorem sub_preserved_fuel (pat rep marker : List Char) (hpat : pat ≠ [])
    (HM : NoMatchInside pat marker) (HA : NoTailOverlap pat marker)
    (HE : ¬ marker <:+: pat) :
    ∀ (n : Nat) (s : List Char), s.length ≤ n → marker <:+: s →
      marker <:+: pyReplace s pat rep := by
  intro n
  induction n with
  | zero =>
    intro s hs hsub
    have hnil : s = [] := List.length_eq_zero.mp (Nat.le_zero.mp hs)
    subst hnil
    obtain ⟨x, y, hxy⟩ := hsub
    simp only [List.append_eq_nil] at hxy
    exact ⟨[], [], by simp [hxy.1.2, pyReplace, pyReplaceGo]⟩
  | succ N ih =>
    intro s hs hsub
    obtain ⟨t, u, hsplit⟩ := hsub
    have hplen : 0 < pat.length := List.length_pos.mpr hpat
    cases t with
    | nil =>
      have hpre : marker <+: s := ⟨u, by rw [← hsplit]; simp⟩
      have h0 : marker.drop 0 <+: s := by simpa using hpre
      have := pre_preserved pat rep marker HM s 0 h0
      simp only [List.drop_zero] at this
      exact sub_of_pre this
    | cons c t' =>
      have hs' : s = c :: (t' ++ marker ++ u) := by
        rw [← hsplit]
        rfl
      by_cases hp : pat <+: s
      · rw [hs'] at hp
        rw [hs', pyReplace_cons_pos rep hpat hp]
        by_cases hlen : pat.length ≤ (c :: t').length
        · have hdrop : (c :: (t' ++ marker ++ u)).drop pat.length
              = (c :: t').drop pat.length ++ (marker ++ u) := by
            have : c :: (t' ++ marker ++ u) = (c :: t') ++ (marker ++ u) := by simp
            rw [this, List.drop_append_eq_append_drop,
              Nat.sub_eq_zero_of_le hlen, List.drop_zero]
          have hsub2 : marker <:+: (c :: (t' ++ marker ++ u)).drop pat.length := by
            rw [hdrop]
            exact ⟨(c :: t').drop pat.length, u, by simp⟩
          have hfuel : ((c :: (t' ++ marker ++ u)).drop pat.length).length ≤ N := by
            rw [hs'] at hs
            simp only [List.length_drop, List.length_cons] at hs ⊢
            omega
          obtain ⟨x, y, hxy⟩ := ih _ hfuel hsub2
          exact ⟨rep ++ x, y, by rw [← hxy]; simp⟩
        · push_neg at hlen
          obtain ⟨v, hv⟩ := hp
          have htake : pat = (c :: t')
              ++ (marker ++ u).take (pat.length - (c :: t').length) := by
            have h1 : (pat ++ v).take pat.length = pat := List.take_left pat v
            calc pat = (pat ++ v).take pat.length := h1.symm
              _ = ((c :: t') ++ (marker ++ u)).take pat.length := by
                  rw [hv]; congr 1; simp
              _ = (c :: t')
                  ++ (marker ++ u).take (pat.length - (c :: t').length) := by
                  rw [List.take_append_eq_append_take,
                    List.take_of_length_le (Nat.le_of_lt hlen)]
          by_cases hkm : marker.length ≤ pat.length - (c :: t').length
          · have htk : (marker ++ u).take (pat.length - (c :: t').length)
                = marker
                  ++ u.take (pat.length - (c :: t').length - marker.length) := by
              rw [List.take_append_eq_append_take,
                List.take_of_length_le hkm]
            rw [htk] at htake
            exact absurd ⟨c :: t', u.take (pat.length - (c :: t').length - marker.length),
              by rw [List.append_assoc]; exact htake.symm⟩ HE
          · push_neg at hkm
            have htk : (marker ++ u).take (pat.length - (c :: t').length)
                = marker.take (pat.length - (c :: t').length) :=
              List.take_append_of_le_length (Nat.le_of_lt hkm)
            rw [htk] at htake
            have hd := congrArg (List.drop (c :: t').length) htake
            rw [List.drop_left] at hd
            have hsubpre : pat.drop (c :: t').length <+: marker := by
              rw [hd]
              exact List.take_prefix _ marker
            exact absurd hsubpre (HA (c :: t').length hlen (by simp))
      · have hnp : ¬ (pat ≠ [] ∧ pat <+: (c :: (t' ++ marker ++ u))) := by
          rintro ⟨-, hph⟩
          exact hp (by rw [hs']; exact hph)
        rw [hs', pyReplace_cons_neg rep hnp]
        have hfuel : (t' ++ marker ++ u).length ≤ N := by
          rw [hs'] at hs
          simp only [List.length_cons] at hs
          omega
        exact sub_cons c (ih _ hfuel ⟨t', u, rfl⟩)

/-- Occurrences of `marker` survive `pyReplace` when no occurrence of `pat`
can intersect one. -/
theorem sub_preserved (pat rep marker : List Char) (hpat : pat ≠ [])
    (HM : NoMatchInside pat marker) (HA : NoTailOverlap pat marker)
    (HE : ¬ marker <:+: pat) {s : List Char} (h : marker <:+: s) :
    marker <:+: pyReplace s pat rep :=
  sub_preserved_fuel pat rep marker hpat HM HA HE s.length s Nat.le.refl h

/-- A string absent from both parts of an append, no non-empty proper
prefix of which is a suffix of the left part, is absent from the append. -/
theorem not_sub_append (marker a b : List Char)
    (ha : ¬ marker <:+: a) (hb : ¬ marker <:+: b)
    (hstr : ∀ k, k < marker.length → 0 < k → ¬ marker.take k <:+ a) :
    ¬ marker <:+: a ++ b := by
  rintro ⟨t, u, h⟩
  rw [List.append_assoc] at h
  by_cases h2 : a.length ≤ t.length
  · apply hb
    have hdR : (a ++ b).drop a.length = b := by
      rw [List.drop_append_eq_append_drop, Nat.sub_self, List.drop_zero,
        List.drop_length, List.nil_append]
    have hdrop : t.drop a.length ++ (marker ++ u).drop (a.length - t.length)
        = b := by
      rw [← List.drop_append_eq_append_drop, h, hdR]
    rw [Nat.sub_eq_zero_of_le h2, List.drop_zero] at hdrop
    exact ⟨t.drop a.length, u, by rw [List.append_assoc]; exact hdrop⟩
  · have h2' : t.length < a.length := Nat.lt_of_not_le h2
    have hR : (a ++ b).take a.length = a := by
      rw [List.take_append_eq_append_take, Nat.sub_self, List.take_zero,
        List.append_nil, List.take_length]
    have htake : t.take a.length ++ (marker ++ u).take (a.length - t.length)
        = a := by
      rw [← List.take_append_eq_append_take, h, hR]
    rw [List.take_of_length_le (Nat.le_of_lt h2')] at htake
    by_cases h1 : t.length + marker.length ≤ a.length
    · apply ha
      rw [List.take_append_eq_append_take,
        List.take_of_length_le (by omega : marker.length ≤ a.length - t.length)]
        at htake
      exact ⟨t, u.take (a.length - t.length - marker.length),
        by rw [List.append_assoc]; exact htake⟩
    · have hk1 : 0 < a.length - t.length := by omega
      have hk2 : a.length - t.length < marker.length := by omega
      apply hstr (a.length - t.length) hk2 hk1
      rw [List.take_append_of_le_length (Nat.le_of_lt hk2)] at htake
      exact ⟨t, htake⟩

/-! ## The doctype-prefix invariant of `render_html` -/

/-- No occurrence of `'<head>'` can begin inside leading whitespace
followed by `'<!DOCTYPE'`. -/
theorem noMatch_space_doctype (w : List Char)
    (hw : ∀ c ∈ w, pyIsSpace c = true) :
    NoMatchInside headTag (w ++ doctypeMarker) := by
  intro j hj
  by_cases hjw : j < w.length
  · have hd : (w ++ doctypeMarker).drop j = w.drop j ++ doctypeMarker :=
      List.drop_append_of_le_length (Nat.le_of_lt hjw)
    have hne : w.drop j ≠ [] := by
      rw [ne_eq, List.drop_eq_nil_iff]
      omega
    obtain ⟨c, cs, hcons⟩ := List.exists_cons_of_ne_nil hne
    have hcw : c ∈ w := by
      apply List.mem_of_mem_drop (n := j)
      rw [hcons]
      exact List.mem_cons_self c cs
    have hspace := hw c hcw
    have hht : headTag = '<' :: "head>".toList := rfl
    constructor
    · intro hp
      rw [hd, hcons, hht, List.cons_append, List.cons_prefix_cons] at hp
      rw [← hp.1] at hspace
      exact absurd hspace (by decide)
    · intro hp
      rw [hd, hcons, hht, List.cons_append, List.cons_prefix_cons] at hp
      rw [hp.1] at hspace
      exact absurd hspace (by decide)
  · have hd : (w ++ doctypeMarker).drop j = doctypeMarker.drop (j - w.length) := by
      rw [List.drop_append_eq_append_drop,
        List.drop_eq_nil_of_le (Nat.le_of_not_lt hjw), List.nil_append]
    rw [hd]
    have hlt : j - w.length < doctypeMarker.length := by
      rw [List.length_append] at hj
      omega
    have hfacts : ∀ i, i < doctypeMarker.length →
        ¬ headTag <+: doctypeMarker.drop i ∧
          ¬ doctypeMarker.drop i <+: headTag := by decide
    exact hfacts _ hlt

/-- `rstrip` keeps the `'<!DOCTYPE'` prefix of a document that starts with
it (the marker ends in a non-whitespace character). -/
theorem rstrip_doctype (t : List Char) :
    doctypeMarker <+: pyRStrip (doctypeMarker ++ t) := by
  unfold pyRStrip
  rw [List.reverse_append, List.dropWhile_append]
  split
  · have hcon : doctypeMarker.reverse.dropWhile pyIsSpace
        = doctypeMarker.reverse := by decide
    rw [hcon, List.reverse_reverse]
  · rw [List.reverse_append, List.reverse_reverse]
    exact List.prefix_append _ _

/-- If `html.strip().startswith('<!DOCTYPE')` then the document is leading
whitespace followed by the doctype marker. -/
theorem docPrefixed_of_guard {h : List Char}
    (hg : pyStartsWith (pyStrip h) doctypeMarker = true) : DocPrefixed h := by
  have hsub : doctypeMarker <+: pyStrip h := by
    have := of_decide_eq_true hg
    exact this
  have hpre : pyStrip h <+: pyLStrip h := by
    unfold pyStrip pyRStrip
    have hsuf : (pyLStrip h).reverse.dropWhile pyIsSpace <:+ (pyLStrip h).reverse :=
      List.dropWhile_suffix pyIsSpace
    have := List.reverse_prefix.mpr hsuf
    rwa [List.reverse_reverse] at this
  have hD : doctypeMarker <+: pyLStrip h := hsub.trans hpre
  obtain ⟨t, ht⟩ := hD
  refine ⟨h.takeWhile pyIsSpace, t, ?_, fun c hc => List.mem_takeWhile_imp hc⟩
  rw [List.append_assoc, ht]
  exact (List.takeWhile_append_dropWhile pyIsSpace h).symm

/-- The output of the doctype step is leading whitespace (possibly none)
followed by the doctype marker. -/
theorem docPrefixed_doctype_prepend (h : List Char) :
    DocPrefixed (doctype_prepend h) := by
  unfold doctype_prepend
  split
  · refine ⟨[], " html>\n".toList ++ h, ?_, by simp⟩
    rw [List.nil_append, ← List.append_assoc]
    have : doctypeLine = doctypeMarker ++ " html>\n".toList := by decide
    rw [← this]
  · rename_i hg
    exact docPrefixed_of_guard (by revert hg; cases pyStartsWith (pyStrip h) doctypeMarker <;> simp)

/-- A head-insertion replace keeps the document doctype-prefixed. -/
theorem docPrefixed_pyReplace {s : List Char} (rep : List Char)
    (hP : DocPrefixed s) : DocPrefixed (pyReplace s headTag rep) := by
  obtain ⟨w, t, hs, hw⟩ := hP
  have hpre0 : (w ++ doctypeMarker) <+: s := by
    rw [hs]
    exact ⟨t, rfl⟩
  have hpre := pre_preserved headTag rep (w ++ doctypeMarker)
    (noMatch_space_doctype w hw) s 0 (by simpa using hpre0)
  simp only [List.drop_zero] at hpre
  obtain ⟨t', ht'⟩ := hpre
  exact ⟨w, t', ht'.symm, hw⟩

/-- A doctype-prefixed document passes the startswith guard. -/
theorem guard_of_docPrefixed {s : List Char} (hP : DocPrefixed s) :
    pyStartsWith (pyStrip s) doctypeMarker = true := by
  obtain ⟨w, t, hs, hw⟩ := hP
  have hl : pyLStrip s = doctypeMarker ++ t := by
    unfold pyLStrip
    rw [hs, List.append_assoc, List.dropWhile_append_of_pos hw]
    have hD : doctypeMarker ++ t = '<' :: ("!DOCTYPE".toList ++ t) := rfl
    rw [hD, List.dropWhile_cons]
    simp [pyIsSpace]
  unfold pyStrip
  rw [hl]
  exact decide_eq_true (rstrip_doctype t)

/-! ## Behaviour of the three guarded head-insertion steps -/

/-- Transitivity of substring occurrence. -/
theorem sub_trans {a b c : List Char} (h1 : a <:+: b) (h2 : b <:+: c) :
    a <:+: c := by
  obtain ⟨x, y, hxy⟩ := h1
  obtain ⟨s, t, hst⟩ := h2
  exact ⟨s ++ x, y ++ t, by rw [← hst, ← hxy]; simp⟩

/-- A substring of the input occurs in the output of `doctype_prepend`. -/
theorem sub_doctype_prepend {m h : List Char} (hm : m <:+: h) :
    m <:+: doctype_prepend h := by
  unfold doctype_prepend
  split
  · exact sub_append_left doctypeLine hm
  · exact hm

/-- After a guarded insertion step run on a document containing `'<head>'`,
both the step's own presence marker and `'<head>'` occur in the output. -/
theorem step_marker {m r : List Char} (s : List Char) (hmr : m <:+: r)
    (hhr : headTag <+: r) (hs : headTag <:+: s) :
    m <:+: (if pyContains s m = false then pyReplace s headTag r else s)
      ∧ headTag <:+: (if pyContains s m = false then pyReplace s headTag r else s) := by
  split
  · have hrep := rep_sub_pyReplace r (by decide) hs
    exact ⟨sub_trans hmr hrep, sub_of_pre_of_sub hhr hrep⟩
  · rename_i hg
    have hm : pyContains s m = true := by
      revert hg
      cases pyContains s m <;> simp
    exact ⟨of_decide_eq_true hm, hs⟩

/-- A guarded insertion step preserves occurrences of a marker that cannot
intersect an occurrence of `'<head>'`. -/
theorem step_preserve {m r : List Char} (marker s : List Char)
    (HM : NoMatchInside headTag marker) (HA : NoTailOverlap headTag marker)
    (HE : ¬ marker <:+: headTag) (h : marker <:+: s) :
    marker <:+: (if pyContains s m = false then pyReplace s headTag r else s) := by
  split
  · exact sub_preserved headTag r marker (by decide) HM HA HE h
  · exact h

/-- A guarded insertion step on a document with no `'<head>'` is the
identity. -/
theorem step_id_noHead {m r : List Char} (s : List Char)
    (hh : ¬ headTag <:+: s) :
    (if pyContains s m = false then pyReplace s headTag r else s) = s := by
  split
  · exact pyReplace_id_of_not_sub r hh
  · rfl

/-- A guarded insertion step whose presence marker already occurs is the
identity. -/
theorem step_id_present {m r : List Char} (s : List Char) (hm : m <:+: s) :
    (if pyContains s m = false then pyReplace s headTag r else s) = s := by
  have hc : pyContains s m = true := decide_eq_true hm
  rw [hc]
  simp

/-- A guarded insertion step keeps the document doctype-prefixed. -/
theorem step_docPrefixed {m r : List Char} (s : List Char)
    (hP : DocPrefixed s) :
    DocPrefixed (if pyContains s m = false then pyReplace s headTag r else s) := by
  split
  · exact docPrefixed_pyReplace r hP
  · exact hP

/-- When `'<head>'` occurs in the input, the output of `render_html`
contains all three presence markers, and it is doctype-prefixed in every
case. -/
theorem render_html_markers (h : List Char) :
    DocPrefixed (render_html h)
      ∧ (headTag <:+: h →
          charsetMarker <:+: render_html h
            ∧ viewportMarker <:+: render_html h
            ∧ cspMarker <:+: render_html h) := by
  unfold render_html charset_insert viewport_insert csp_insert
  constructor
  · exact step_docPrefixed _ (step_docPrefixed _ (step_docPrefixed _
      (docPrefixed_doctype_prepend h)))
  · intro hh
    have hh1 : headTag <:+: doctype_prepend h := sub_doctype_prepend hh
    have A := step_marker (m := charsetMarker) (r := charsetIns)
      (doctype_prepend h) (by decide) (by decide) hh1
    have B := step_marker (m := viewportMarker) (r := viewportIns)
      _ (by decide) (by decide) A.2
    have C := step_marker (m := cspMarker) (r := cspIns)
      _ (by decide) (by decide) B.2
    have hcs3 := step_preserve (m := viewportMarker) (r := viewportIns)
      charsetMarker _ (by decide) (by decide) (by decide) A.1
    have hcs4 := step_preserve (m := cspMarker) (r := cspIns)
      charsetMarker _ (by decide) (by decide) (by decide) hcs3
    have hvp4 := step_preserve (m := cspMarker) (r := cspIns)
      viewportMarker _ (by decide) (by decide) (by decide) B.1
    exact ⟨hcs4, hvp4, C.1⟩

/-- When `'<head>'` does not occur in the input, the three insertion steps
of `render_html` do nothing. -/
theorem render_html_noHead {h : List Char} (hh : ¬ headTag <:+: h) :
    render_html h = doctype_prepend h := by
  have hh1 : ¬ headTag <:+: doctype_prepend h := by
    unfold doctype_prepend
    split
    · exact not_sub_append headTag doctypeLine h (by decide) hh (by decide)
    · exact hh
  unfold render_html charset_insert viewport_insert csp_insert
  rw [step_id_noHead _ hh1, step_id_noHead _ hh1, step_id_noHead _ hh1]

/-- Claim C3: `render_html` is idempotent: every guarded insertion step of
a second application finds its presence condition satisfied (or no
`'<head>'` to rewrite) and leaves the document unchanged. -/
theorem render_html_idempotent (h : List Char) :
    render_html (render_html h) = render_html h := by
  obtain ⟨hP, hmk⟩ := render_html_markers h
  have hd : doctype_prepend (render_html h) = render_html h := by
    unfold doctype_prepend
    rw [guard_of_docPrefixed hP]
    simp
  by_cases hh : headTag <:+: h
  · obtain ⟨hcs, hvp, hcp⟩ := hmk hh
    show csp_insert (viewport_insert (charset_insert
      (doctype_prepend (render_html h)))) = render_html h
    unfold charset_insert viewport_insert csp_insert
    rw [hd, step_id_present _ hcs, step_id_present _ hvp, step_id_present _ hcp]
  · have hr : render_html h = doctype_prepend h := render_html_noHead hh
    have hh1 : ¬ headTag <:+: render_html h := by
      rw [hr]
      unfold doctype_prepend
      split
      · exact not_sub_append headTag doctypeLine h (by decide) hh (by decide)
      · exact hh
    show csp_insert (viewport_insert (charset_insert
      (doctype_prepend (render_html h)))) = render_html h
    unfold charset_insert viewport_insert csp_insert
    rw [hd, step_id_noHead _ hh1, step_id_noHead _ hh1, step_id_noHead _ hh1]

/-- Claim C4: on `"<html><head></head><body>x</body></html>"`,
`render_html` produces the document with the CSP, viewport and charset
meta tags inserted after `'<head>'` (the four insertion steps applied in
the order doctype, charset, viewport, CSP), containing exactly one
doctype declaration, one charset meta tag, one viewport meta tag and one
CSP meta tag, with the body content unchanged. -/
theorem render_html_example :
    render_html ("<html><head></head><body>x</body></html>".toList)
      = "<!DOCTYPE html>\n<html><head>\n    ".toList ++ csp_meta
        ++ "\n    <meta name=\"viewport\" content=\"width=device-width, initial-scale=1.0\">\n    <meta charset=\"UTF-8\"></head><body>x</body></html>".toList
    ∧ countOcc doctypeMarker
        (render_html ("<html><head></head><body>x</body></html>".toList)) = 1
    ∧ countOcc charsetMarker
        (render_html ("<html><head></head><body>x</body></html>".toList)) = 1
    ∧ countOcc ("<meta name=\"viewport\"".toList)
        (render_html ("<html><head></head><body>x</body></html>".toList)) = 1
    ∧ countOcc cspMarker
        (render_html ("<html><head></head><body>x</body></html>".toList)) = 1
    ∧ "<body>x</body>".toList <:+:
        render_html ("<html><head></head><body>x</body></html>".toList) := by
  refine ⟨by decide, by decide, by decide, by decide, by decide, by decide⟩

/-- Claim C10: the head insertions key on exact lowercase literal
substrings, not HTML structure: without the literal `'<head>'` only the
doctype step can act; a bare `'viewport'` or `'Content-Security-Policy'`
anywhere in the document suppresses the corresponding insertion; and every
occurrence of `'<head>'` (two in the example, one of them in body text)
receives the insertion. -/
theorem render_html_literal_substrings :
    (∀ h : List Char, ¬ headTag <:+: h → render_html h = doctype_prepend h)
    ∧ (∀ h : List Char, viewportMarker <:+: h →
        render_html h = csp_insert (charset_insert (doctype_prepend h)))
    ∧ (∀ h : List Char, cspMarker <:+: h →
        render_html h = viewport_insert (charset_insert (doctype_prepend h)))
    ∧ countOcc charsetMarker
        (render_html ("<html><head></head><body><head></body></html>".toList))
        = 2 := by
  refine ⟨fun h hh => render_html_noHead hh, ?_, ?_, by decide⟩
  · intro h hm
    have hv1 : viewportMarker <:+: doctype_prepend h := sub_doctype_prepend hm
    have hv2 := step_preserve (m := charsetMarker) (r := charsetIns)
      viewportMarker (doctype_prepend h) (by decide) (by decide) (by decide) hv1
    show csp_insert (viewport_insert (charset_insert (doctype_prepend h)))
      = csp_insert (charset_insert (doctype_prepend h))
    unfold charset_insert viewport_insert
    rw [step_id_present _ hv2]
  · intro h hm
    have hc1 : cspMarker <:+: doctype_prepend h := sub_doctype_prepend hm
    have hc2 := step_preserve (m := charsetMarker) (r := charsetIns)
      cspMarker (doctype_prepend h) (by decide) (by decide) (by decide) hc1
    have hc3 := step_preserve (m := viewportMarker) (r := viewportIns)
      cspMarker _ (by decide) (by decide) (by decide) hc2
    show csp_insert (viewport_insert (charset_insert (doctype_prepend h)))
      = viewport_insert (charset_insert (doctype_prepend h))
    unfold charset_insert viewport_insert csp_insert
    rw [step_id_present _ hc3]

/-- Witness for `render_html_literal_substrings` at concrete inputs:
`'<head lang="en">'` and uppercase `'<HEAD>'` do not contain the literal
`'<head>'`, so only the doctype prepend applies; a bare `'viewport'` in
body text suppresses the viewport insertion. -/
theorem render_html_literal_substrings_witness :
    render_html ("<html><head lang=\"en\"><body>x</body></html>".toList)
      = doctype_prepend ("<html><head lang=\"en\"><body>x</body></html>".toList)
    ∧ render_html ("<HEAD>".toList) = doctype_prepend ("<HEAD>".toList)
    ∧ render_html ("<html><head></head><body>viewport</body></html>".toList)
      = csp_insert (charset_insert
          (doctype_prepend ("<html><head></head><body>viewport</body></html>".toList)))
    ∧ render_html ("<html><head></head><body>Content-Security-Policy</body></html>".toList)
      = viewport_insert (charset_insert
          (doctype_prepend
            ("<html><head></head><body>Content-Security-Policy</body></html>".toList))) :=
  ⟨render_html_literal_substrings.1 _ (by decide),
   render_html_literal_substrings.1 _ (by decide),
   render_html_literal_substrings.2.1 _ (by decide),
   render_html_literal_substrings.2.2.1 _ (by decide)⟩

/-- Claim C5: `is_valid_url` returns true exactly when the stripped string
begins with the case-sensitive literal `http://` or `https://`; it accepts
`"http://"` and `"https://x"`, trims surrounding whitespace first, and
performs no further well-formedness check (the definition is a pure
function of the string, with no side effect or failure mode). -/
theorem is_valid_url_iff_scheme :
    (∀ u : List Char, is_valid_url u = true ↔
      ((∃ rest, "http://".toList ++ rest = pyStrip u)
        ∨ (∃ rest, "https://".toList ++ rest = pyStrip u)))
    ∧ is_valid_url ("http://".toList) = true
    ∧ is_valid_url ("https://x".toList) = true
    ∧ is_valid_url ("   http://x  ".toList) = true
    ∧ is_valid_url ("HTTP://x".toList) = false
    ∧ is_valid_url ("ftp://example.com".toList) = false := by
  refine ⟨?_, by decide, by decide, by decide, by decide, by decide⟩
  intro u
  unfold is_valid_url pyStartsWith
  rw [Bool.or_eq_true, decide_eq_true_iff, decide_eq_true_iff]
  exact Iff.rfl

/-- Claim C2 (code bug): evaluated at the failing input, an auditor exit
code of 1: `run_node_axe` returns the fallback document and the temporary
output file has not been deleted (`os.unlink` is only reached on the
success path), contradicting the guaranteed-cleanup contract. -/
theorem run_node_axe_nonzero_exit_leaks_temp_file :
    run_node_axe { returncode := 1, stderr := "boom", outFileContent := [] }
      = { returnedHtml := errorFallbackHtml, tempFileDeleted := false }
    ∧ run_node_axe { returncode := 0, stderr := "", outFileContent := "ok".toList }
      = { returnedHtml := "ok".toList, tempFileDeleted := true } :=
  ⟨rfl, rfl⟩

/-- Claim C7: `run_accessibility_check` never lets an exception escape: for
every auditor behaviour it returns a result value, while its `try`-block
body alone does raise (witnessed on the hanging auditor), so the handlers
are what guarantee totality. -/
theorem run_accessibility_check_never_raises :
    (∀ b : AuditorBehavior, ∃ v : JValue, run_accessibility_check b = .ok v)
    ∧ run_accessibility_check_body .hangs = .error .timeoutExpired := by
  constructor
  · intro b
    cases hb : run_accessibility_check_body b with
    | ok v => exact ⟨v, by unfold run_accessibility_check; rw [hb]⟩
    | error e =>
      cases e with
      | timeoutExpired =>
        exact ⟨timeoutResult, by unfold run_accessibility_check; rw [hb]⟩
      | exn msg =>
        exact ⟨exceptionResult msg, by unfold run_accessibility_check; rw [hb]⟩
  · rfl

/-- Claim C6: an auditor exceeding the 60-second budget (or never exiting)
makes `run_accessibility_check` return the timeout result, which differs
from every process-failure result. -/
theorem run_accessibility_check_timeout_distinct
    (e : Nat) (rc : Int) (out : Except String JValue) (err err2 : String)
    (hb : timeoutSeconds < e) :
    run_accessibility_check (.exits e rc out err) = .ok timeoutResult
    ∧ run_accessibility_check .hangs = .ok timeoutResult
    ∧ timeoutResult ≠ processFailureResult err2 := by
  refine ⟨?_, rfl, ?_⟩
  · have h1 : ¬ e ≤ timeoutSeconds := by omega
    simp [run_accessibility_check, run_accessibility_check_body, subprocess_run, h1]
  · intro hEq
    have h3 : getField timeoutResult "error"
        = getField (processFailureResult err2) "error" := by rw [hEq]
    have hL : getField timeoutResult "error"
        = some (.str "Request timed out") := rfl
    have hR : getField (processFailureResult err2) "error"
        = some (.str ("Node.js script failed: " ++ err2)) := rfl
    rw [hL, hR] at h3
    simp only [Option.some.injEq, JValue.str.injEq] at h3
    have hlen := congrArg String.length h3
    rw [String.length_append] at hlen
    have l1 : ("Request timed out" : String).length = 17 := rfl
    have l2 : ("Node.js script failed: " : String).length = 23 := rfl
    rw [l1, l2] at hlen
    omega

/-- Witness for `run_accessibility_check_timeout_distinct`: an auditor
running for 61 seconds. -/
theorem run_accessibility_check_timeout_distinct_witness :
    run_accessibility_check (.exits 61 0 (.ok .null) "") = .ok timeoutResult
    ∧ run_accessibility_check .hangs = .ok timeoutResult
    ∧ timeoutResult ≠ processFailureResult "oops" :=
  run_accessibility_check_timeout_distinct 61 0 (.ok .null) "" "oops" (by decide)

/-- Claim C1 (counterexample): an auditor that exits 0 with stdout parsing
to `{"success": false, "error": "boom"}` makes `run_accessibility_check`
return that payload verbatim: the result has success flag false and
carries the error string, but no `streamlitHtml` key at all, so there is
no fallback HTML containing `"boom"`. -/
theorem success_false_payload_lacks_fallback_html :
    run_accessibility_check (.exits 0 0 (.ok boomPayload) "") = .ok boomPayload
    ∧ getField boomPayload "success" = some (.bool false)
    ∧ getField boomPayload "error" = some (.str "boom")
    ∧ getField boomPayload "streamlitHtml" = none :=
  ⟨rfl, rfl, rfl, rfl⟩

/-- Claim C1 (amended): an exit-0 run whose stdout parses is returned as
the parsed payload verbatim (the fallback HTML exists only if the payload
itself carries one), while the failure results the function itself builds
(non-zero exit, exception) do carry a fallback HTML fragment containing
the error text. -/
theorem run_accessibility_check_payload_verbatim
    (e : Nat) (v : JValue) (err msg : String) (rc : Int)
    (he : e ≤ timeoutSeconds) (hrc : rc ≠ 0) :
    run_accessibility_check (.exits e 0 (.ok v) err) = .ok v
    ∧ run_accessibility_check (.exits e rc (.ok v) err)
        = .ok (processFailureResult err)
    ∧ (∃ pre post, getField (processFailureResult err) "streamlitHtml"
        = some (.str (pre ++ err ++ post)))
    ∧ (∃ pre post, getField (exceptionResult msg) "streamlitHtml"
        = some (.str (pre ++ msg ++ post))) := by
  refine ⟨?_, ?_, ?_, ?_⟩
  · simp [run_accessibility_check, run_accessibility_check_body,
      subprocess_run, he]
  · have hbeq : (rc == 0) = false := by
      simp [hrc]
    simp [run_accessibility_check, run_accessibility_check_body,
      subprocess_run, he, hbeq]
  · exact ⟨"<div style=\"padding: 20px; color: red;\">Error: ", "</div>", rfl⟩
  · exact ⟨"<div style=\"padding: 20px; color: red;\">Error: ", "</div>", rfl⟩

/-- Witness for `run_accessibility_check_payload_verbatim` at a concrete
run: exit after 1 second, exit code 1, payload `boomPayload`. -/
theorem run_accessibility_check_payload_verbatim_witness :
    run_accessibility_check (.exits 1 0 (.ok boomPayload) "se") = .ok boomPayload
    ∧ run_accessibility_check (.exits 1 1 (.ok boomPayload) "se")
        = .ok (processFailureResult "se")
    ∧ (∃ pre post, getField (processFailureResult "se") "streamlitHtml"
        = some (.str (pre ++ "se" ++ post)))
    ∧ (∃ pre post, getField (exceptionResult "m") "streamlitHtml"
        = some (.str (pre ++ "m" ++ post))) :=
  run_accessibility_check_payload_verbatim 1 boomPayload "se" "m" 1
    (by decide) (by decide)

/-- Claim C8: the file-mode front end never dispatches an audit with an
empty standards list: every `run_node_axe` invocation in the event trace
carries the non-empty selected list, and with a valid URL and an empty
selection the pass emits exactly the select-a-standard message. -/
theorem ui_dispatch_standards_guard :
    (∀ (url : List Char) (w2a w2aa bp aria kb pressed : Bool)
        (inv : Invocation),
        UiEvent.audit inv ∈ ui_dispatch url w2a w2aa bp aria kb pressed →
          inv.standards ≠ [])
    ∧ (∀ (url : List Char) (w2a w2aa bp aria kb pressed : Bool),
        url ≠ [] → is_valid_url url = true →
          selected_standards w2a w2aa bp aria = [] →
            ui_dispatch url w2a w2aa bp aria kb pressed
              = [.info selectStandardMsg]) := by
  constructor
  · intro url w2a w2aa bp aria kb pressed inv hmem
    unfold ui_dispatch at hmem
    rw [List.mem_append] at hmem
    rcases hmem with hmem | hmem
    · split at hmem <;> simp at hmem
    · split at hmem
      · split at hmem
        · simp at hmem
        · rename_i hstds
          rw [List.mem_append] at hmem
          rcases hmem with hmem | hmem
          · simp at hmem
          · split at hmem
            · simp at hmem
              rcases hmem with h | h <;> (subst h; exact hstds)
            · simp at hmem
      · simp at hmem
  · intro url w2a w2aa bp aria kb pressed hurl hvalid hstds
    simp [ui_dispatch, hurl, hvalid, hstds]

/-- Witness for `ui_dispatch_standards_guard`: a pass with one standard
selected and the button pressed dispatches invocations with the non-empty
list, and a pass with no standard selected emits only the message. -/
theorem ui_dispatch_standards_guard_witness :
    (Invocation.mk ("http://x".toList) ["WCAG 2.0A"] "desktop" false).standards
      ≠ []
    ∧ ui_dispatch ("http://x".toList) false false false false false true
        = [.info selectStandardMsg] :=
  ⟨ui_dispatch_standards_guard.1 ("http://x".toList) true false false false
      false true _ (by decide),
   ui_dispatch_standards_guard.2 ("http://x".toList) false false false false
      false true (by decide) (by decide) rfl⟩

/-- Claim C9 (counterexample): the JSON-mode front end gates dispatch only
on non-emptiness of the URL: a press with the invalid-shaped URL
`"notaurl"` reaches `run_accessibility_check` even though `is_valid_url`
rejects it. -/
theorem json_mode_invalid_url_reaches_checker :
    (main_pass { run_test := false, test_url := [] } ("notaurl".toList) true).1
      = ["notaurl".toList]
    ∧ is_valid_url ("notaurl".toList) = false := by
  refine ⟨by decide, by decide⟩

/-- Claim C9 (amended): in the file-mode front end every dispatched
`run_node_axe` invocation has a URL accepted by `is_valid_url`; the
JSON-mode front end dispatches any non-empty URL on a button press,
checking no scheme predicate. -/
theorem dispatched_url_validity
    (url : List Char) (w2a w2aa bp aria kb pressed : Bool) (inv : Invocation)
    (st : SessionState) (u : List Char)
    (hmem : UiEvent.audit inv ∈ ui_dispatch url w2a w2aa bp aria kb pressed)
    (hu : u ≠ []) :
    is_valid_url inv.url = true ∧ (main_pass st u true).1 = [u] := by
  constructor
  · unfold ui_dispatch at hmem
    rw [List.mem_append] at hmem
    rcases hmem with hmem | hmem
    · split at hmem <;> simp at hmem
    · split at hmem
      · rename_i hcond
        split at hmem
        · simp at hmem
        · rw [List.mem_append] at hmem
          rcases hmem with hmem | hmem
          · simp at hmem
          · split at hmem
            · simp at hmem
              rcases hmem with h | h <;> (subst h; exact hcond.2)
            · simp at hmem
      · simp at hmem
  · simp [main_pass, hu]

/-- Witness for `dispatched_url_validity` at a concrete pass of each
front end. -/
theorem dispatched_url_validity_witness :
    is_valid_url (Invocation.mk ("http://x".toList) ["WCAG 2.0A"] "desktop"
      false).url = true
    ∧ (main_pass { run_test := false, test_url := [] } ("notaurl".toList)
        true).1 = ["notaurl".toList] :=
  dispatched_url_validity ("http://x".toList) true false false false false
    true _ { run_test := false, test_url := [] } ("notaurl".toList)
    (by decide) (by decide)

end A11y
